import Mathlib

/-!
Verification of the ChainWarZ front-end wallet core.

This file shallowly embeds the wallet-session core of the ChainWarZ
single-page app: the exact BigInt amount arithmetic (parseUnits and
toHexWei), and the provider / chain-negotiation / strike-submission
workflow of the several near-duplicate component variants:

* variant V0: the version with a fixed STRIKE_WEI constant, a plain
  switch-then-poll switchChain, and sendTransaction with a defensive
  chain re-check;
* variant V1: the version that parses decimal strike amounts with
  parseUnits and whose switchChain adds the chain (code 4902) and
  retries the switch before the verification poll;
* variant V2: the version keyed by CHAINS records carrying a valueWei
  constant, with switchOrAddChain and sendStrike.

Providers are modelled as history-dependent response functions; each
provider call and each sleep is recorded in an event trace, so theorems
can count calls and delays exactly as the observable behaviour of the
JavaScript code.
-/

namespace ChainWarz

/-! ## JavaScript string and BigInt model -/

/-- Code points of the ECMAScript WhiteSpace and LineTerminator
productions, the characters stripped both by String.prototype.trim and
at the ends of the argument of the BigInt string conversion: TAB, LF,
VT, FF, CR, SP, NBSP, OGHAM SPACE MARK, LS, PS, NARROW NBSP, MEDIUM
MATHEMATICAL SPACE, IDEOGRAPHIC SPACE and ZWNBSP; the EN QUAD to HAIR
SPACE block 0x2000 to 0x200A is handled as a range below. -/
def jsWsCodes : List Nat :=
  [9, 10, 11, 12, 13, 32, 160, 5760, 8232, 8233, 8239, 8287, 12288, 65279]

/-- Whitespace test used by the JS trimming model: the full ECMAScript
WhiteSpace and LineTerminator set. -/
def jsIsWs (c : Char) : Bool :=
  decide (c.toNat ∈ jsWsCodes ∨ (8192 ≤ c.toNat ∧ c.toNat ≤ 8202))

/-- Model of JS String.prototype.trim on a character list. -/
def jsTrim (l : List Char) : List Char :=
  ((l.dropWhile jsIsWs).reverse.dropWhile jsIsWs).reverse

/-- Model of JS String.prototype.split with separator a single dot.
JS split of the empty string yields one empty segment. -/
def splitOnDot : List Char → List (List Char)
  | [] => [[]]
  | c :: rest =>
    let r := splitOnDot rest
    if c = '.' then [] :: r
    else (c :: r.headD []) :: r.tail

/-- Numeric value of a hexadecimal digit character, if any
(0-9, a-f, A-F). -/
def charHexVal (c : Char) : Option Nat :=
  if 48 ≤ c.toNat ∧ c.toNat ≤ 57 then some (c.toNat - 48)
  else if 97 ≤ c.toNat ∧ c.toNat ≤ 102 then some (c.toNat - 87)
  else if 65 ≤ c.toNat ∧ c.toNat ≤ 70 then some (c.toNat - 55)
  else none

/-- Digit value in base b (b ∈ {2, 8, 10, 16} in this development). -/
def digitVal (b : Nat) (c : Char) : Option Nat :=
  match charHexVal c with
  | some d => if d < b then some d else none
  | none => none

/-- Accumulating digit-string reader for the BigInt model. -/
def parseBaseGo (b : Nat) (acc : Nat) : List Char → Option Nat
  | [] => some acc
  | c :: t =>
    match digitVal b c with
    | none => none
    | some d => parseBaseGo b (acc * b + d) t

/-- Reads a non-empty all-digit string in base b; none on the empty
string or any non-digit, matching the ECMAScript BigInt digit grammar. -/
def parseBase (b : Nat) (l : List Char) : Option Nat :=
  if l = [] then none else parseBaseGo b 0 l

/-- Model of ECMAScript StringToBigInt on an already trimmed character
list: empty means 0; an optional sign before decimal digits; 0x / 0o /
0b prefixes select the base; anything else is a syntax error (none). -/
def jsParseIntChars : List Char → Option Int
  | [] => some 0
  | c :: rest =>
    if c = '+' then (parseBase 10 rest).map Int.ofNat
    else if c = '-' then (parseBase 10 rest).map (fun n => -(n : Int))
    else if c = '0' then
      match rest with
      | [] => some 0
      | d :: rest2 =>
        if d = 'x' ∨ d = 'X' then (parseBase 16 rest2).map Int.ofNat
        else if d = 'o' ∨ d = 'O' then (parseBase 8 rest2).map Int.ofNat
        else if d = 'b' ∨ d = 'B' then (parseBase 2 rest2).map Int.ofNat
        else (parseBase 10 (c :: rest)).map Int.ofNat
    else (parseBase 10 (c :: rest)).map Int.ofNat

/-- Model of the JS BigInt(string) conversion: trims, then reads the
numeric literal; none models a thrown SyntaxError. -/
def jsStringToBigInt (l : List Char) : Option Int :=
  jsParseIntChars (jsTrim l)

/-- Embedding of the source function parseUnits(amountStr, decimals)
on character lists:

s = String(amountStr).trim();
[wholeRaw, fracRaw = ''] = s.split('.');
whole = wholeRaw === '' ? '0' : wholeRaw;
frac = (fracRaw + '0'.repeat(decimals)).slice(0, decimals);
return BigInt(whole) * 10n ** BigInt(decimals) + BigInt(frac || '0');

none models a thrown exception from BigInt. The successive helper
definitions name the intermediate strings of the source lines. -/
def puParts (l : List Char) : List (List Char) :=
  splitOnDot (jsTrim l)

/-- wholeRaw === '' ? '0' : wholeRaw, for the split parts of l. -/
def puWhole (l : List Char) : List Char :=
  if (puParts l).headD [] = [] then ['0'] else (puParts l).headD []

/-- frac, computed as fracRaw padded with repeated zeros and sliced to decimals characters. -/
def puFrac (l : List Char) (decimals : Nat) : List Char :=
  (((puParts l).drop 1).headD [] ++ List.replicate decimals '0').take decimals

/-- The argument of the second BigInt call: frac || '0'. -/
def puFracArg (l : List Char) (decimals : Nat) : List Char :=
  if puFrac l decimals = [] then ['0'] else puFrac l decimals

/-- BigInt(whole) * 10n ** BigInt(decimals) + BigInt(frac || '0'). -/
def parseUnitsChars (l : List Char) (decimals : Nat) : Option Int :=
  match jsStringToBigInt (puWhole l) with
  | none => none
  | some w =>
    match jsStringToBigInt (puFracArg l decimals) with
    | none => none
    | some f => some (w * (10 : Int) ^ decimals + f)

/-- parseUnits on Lean strings (the source defaults decimals to 18). -/
def parseUnits (s : String) (decimals : Nat) : Option Int :=
  parseUnitsChars s.toList decimals

/-- Lowercase hex digit character, as produced by JS toString(16). -/
def hexDigitChar (d : Nat) : Char :=
  if d < 10 then Char.ofNat (48 + d) else Char.ofNat (87 + d)

/-- Little-endian base-16 digits of n, with explicit fuel to keep the
recursion structural. -/
def natHexAux : Nat → Nat → List Nat
  | 0, _ => []
  | fuel + 1, n => if n = 0 then [] else n % 16 :: natHexAux fuel (n / 16)

/-- Little-endian base-16 digits of n. -/
def natHexLE (n : Nat) : List Nat := natHexAux n n

/-- Characters of the JS n.toString(16) rendering of a natural. -/
def natToHexChars (n : Nat) : List Char :=
  if n = 0 then ['0'] else ((natHexLE n).reverse).map hexDigitChar

/-- Model of JS BigInt.prototype.toString(16): lowercase, no leading
zeros, a leading minus sign for negatives. -/
def jsBigIntToString16 (i : Int) : String :=
  if i < 0 then String.mk ('-' :: natToHexChars i.natAbs)
  else String.mk (natToHexChars i.toNat)

/-- Embedding of the source function toHexWei(bi): the 0x prefix followed by bi.toString(16). -/
def toHexWei (i : Int) : String :=
  "0x" ++ jsBigIntToString16 i

/-- Integer part of the split that parseUnits performs: the characters
before the first dot of the trimmed input. -/
def wholeChars (s : String) : List Char :=
  (puParts s.toList).headD []

/-- Length of the fractional part of the split that parseUnits performs. -/
def fracLen (s : String) : Nat :=
  (((puParts s.toList).drop 1).headD []).length

/-! ## Basic lemmas about the string model -/

theorem dropWhile_eq_self_of_none {p : Char → Bool} {l : List Char}
    (h : ∀ c ∈ l, p c = false) : l.dropWhile p = l := by
  cases l with
  | nil => rfl
  | cons c t =>
    rw [List.dropWhile_cons, if_neg]
    simp [h c (List.mem_cons_self c t)]

theorem jsTrim_of_noWs {l : List Char} (h : ∀ c ∈ l, jsIsWs c = false) :
    jsTrim l = l := by
  unfold jsTrim
  rw [dropWhile_eq_self_of_none h]
  rw [dropWhile_eq_self_of_none (fun c hc => h c (List.mem_reverse.mp hc))]
  exact l.reverse_reverse

theorem splitOnDot_ne_nil (l : List Char) : splitOnDot l ≠ [] := by
  cases l with
  | nil => simp [splitOnDot]
  | cons c t =>
    simp only [splitOnDot]
    split <;> simp

theorem headD_mem {α : Type} {r : List α} (d : α) (h : r ≠ []) : r.headD d ∈ r := by
  cases r with
  | nil => exact absurd rfl h
  | cons a t => simp

theorem mem_of_mem_tail {α : Type} {r : List α} {x : α} (h : x ∈ r.tail) : x ∈ r := by
  cases r with
  | nil => simp at h
  | cons a t => exact List.mem_cons_of_mem a h

theorem splitOnDot_mem {l part : List Char} {c : Char}
    (hp : part ∈ splitOnDot l) (hc : c ∈ part) : c ∈ l ∧ c ≠ '.' := by
  induction l generalizing part with
  | nil =>
    simp [splitOnDot] at hp
    subst hp; simp at hc
  | cons x rest ih =>
    simp only [splitOnDot] at hp
    by_cases hx : x = '.'
    · rw [if_pos hx] at hp
      rcases List.mem_cons.mp hp with h1 | h2
      · subst h1; simp at hc
      · obtain ⟨h3, h4⟩ := ih h2 hc
        exact ⟨List.mem_cons_of_mem x h3, h4⟩
    · rw [if_neg hx] at hp
      rcases List.mem_cons.mp hp with h1 | h2
      · subst h1
        rcases List.mem_cons.mp hc with h5 | h6
        · subst h5; exact ⟨List.mem_cons_self _ _, hx⟩
        · have hr := splitOnDot_ne_nil rest
          have := ih (headD_mem [] hr) h6
          exact ⟨List.mem_cons_of_mem x this.1, this.2⟩
      · have := ih (mem_of_mem_tail h2) hc
        exact ⟨List.mem_cons_of_mem x this.1, this.2⟩

theorem splitOnDot_no_dot {l : List Char} (h : ∀ c ∈ l, c ≠ '.') :
    splitOnDot l = [l] := by
  induction l with
  | nil => rfl
  | cons x rest ih =>
    simp only [splitOnDot]
    rw [if_neg (h x (List.mem_cons_self x rest))]
    rw [ih (fun c hc => h c (List.mem_cons_of_mem x hc))]
    rfl

/-! ## Digit lemmas -/

theorem isDigit_toNat {c : Char} (h : c.isDigit = true) :
    48 ≤ c.toNat ∧ c.toNat ≤ 57 := by
  simpa [Char.isDigit] using h

theorem digitVal_ten_of_digit {c : Char} (h : c.isDigit = true) :
    digitVal 10 c = some (c.toNat - 48) := by
  obtain ⟨h1, h2⟩ := isDigit_toNat h
  unfold digitVal charHexVal
  rw [if_pos ⟨h1, h2⟩]
  simp only []
  rw [if_pos (by omega : c.toNat - 48 < 10)]

theorem digitVal_ten_none {c : Char} (h : c.isDigit = false) :
    digitVal 10 c = none := by
  have h' : ¬ (48 ≤ c.toNat ∧ c.toNat ≤ 57) := by
    intro hcon
    rw [show c.isDigit = true by simpa [Char.isDigit] using hcon] at h
    exact absurd h (by decide)
  unfold digitVal charHexVal
  by_cases hB : 97 ≤ c.toNat ∧ c.toNat ≤ 102
  · rw [if_neg h', if_pos hB]
    show (if c.toNat - 87 < 10 then some (c.toNat - 87) else none) = none
    rw [if_neg (by omega : ¬ (c.toNat - 87 < 10))]
  · by_cases hC : 65 ≤ c.toNat ∧ c.toNat ≤ 70
    · rw [if_neg h', if_neg hB, if_pos hC]
      show (if c.toNat - 55 < 10 then some (c.toNat - 55) else none) = none
      rw [if_neg (by omega : ¬ (c.toNat - 55 < 10))]
    · rw [if_neg h', if_neg hB, if_neg hC]

theorem ne_of_isDigit {c c' : Char} (h : c.isDigit = true)
    (h' : c'.isDigit = false) : c ≠ c' := by
  intro hEq; rw [hEq, h'] at h; exact Bool.false_ne_true h

theorem parseBaseGo_digits {l : List Char} (h : ∀ c ∈ l, c.isDigit = true) :
    ∀ acc, ∃ n : Nat, parseBaseGo 10 acc l = some n := by
  induction l with
  | nil => exact fun acc => ⟨acc, rfl⟩
  | cons c t ih =>
    intro acc
    simp only [parseBaseGo]
    rw [digitVal_ten_of_digit (h c (List.mem_cons_self c t))]
    exact ih (fun c' hc' => h c' (List.mem_cons_of_mem c hc')) _

theorem parseBaseGo_bad {l : List Char} {c : Char} (hc : c ∈ l)
    (h : c.isDigit = false) : ∀ acc, parseBaseGo 10 acc l = none := by
  induction l with
  | nil => simp at hc
  | cons x t ih =>
    intro acc
    simp only [parseBaseGo]
    rcases List.mem_cons.mp hc with h1 | h2
    · subst h1
      rw [digitVal_ten_none h]
    · cases hdv : digitVal 10 x with
      | none => rfl
      | some d => exact ih h2 _

theorem jsParseIntChars_digits {l : List Char} (hne : l ≠ [])
    (h : ∀ c ∈ l, c.isDigit = true) :
    ∃ n : Nat, jsParseIntChars l = some (Int.ofNat n) := by
  cases l with
  | nil => exact absurd rfl hne
  | cons c t =>
    have hc := h c (List.mem_cons_self c t)
    have hplus : c ≠ '+' := ne_of_isDigit hc (by decide)
    have hminus : c ≠ '-' := ne_of_isDigit hc (by decide)
    simp only [jsParseIntChars]
    rw [if_neg hplus, if_neg hminus]
    by_cases h0 : c = '0'
    · rw [if_pos h0]
      cases t with
      | nil => exact ⟨0, rfl⟩
      | cons d t2 =>
        have hd := h d (List.mem_cons_of_mem c (List.mem_cons_self d t2))
        have hx : ¬ (d = 'x' ∨ d = 'X') := by rintro (rfl | rfl) <;> simp at hd
        have ho : ¬ (d = 'o' ∨ d = 'O') := by rintro (rfl | rfl) <;> simp at hd
        have hb : ¬ (d = 'b' ∨ d = 'B') := by rintro (rfl | rfl) <;> simp at hd
        obtain ⟨n, hn⟩ := parseBaseGo_digits h 0
        refine ⟨n, ?_⟩
        show (if d = 'x' ∨ d = 'X' then Option.map Int.ofNat (parseBase 16 t2)
          else if d = 'o' ∨ d = 'O' then Option.map Int.ofNat (parseBase 8 t2)
          else if d = 'b' ∨ d = 'B' then Option.map Int.ofNat (parseBase 2 t2)
          else Option.map Int.ofNat (parseBase 10 (c :: d :: t2))) = some (Int.ofNat n)
        rw [if_neg hx, if_neg ho, if_neg hb]
        unfold parseBase
        rw [if_neg (by simp), hn]
        rfl
    · rw [if_neg h0]
      obtain ⟨n, hn⟩ := parseBaseGo_digits h 0
      refine ⟨n, ?_⟩
      unfold parseBase
      rw [if_neg (by simp), hn]
      rfl

theorem jsParseIntChars_bad {l : List Char} {h0 : Char} {t : List Char}
    (hl : l = h0 :: t) (hdig : h0.isDigit = true) (hz : h0 ≠ '0')
    (hbad : ∃ c ∈ l, c.isDigit = false) : jsParseIntChars l = none := by
  subst hl
  have hplus : h0 ≠ '+' := ne_of_isDigit hdig (by decide)
  have hminus : h0 ≠ '-' := ne_of_isDigit hdig (by decide)
  simp only [jsParseIntChars]
  rw [if_neg hplus, if_neg hminus, if_neg hz]
  obtain ⟨c, hc, hcbad⟩ := hbad
  unfold parseBase
  rw [if_neg (by simp), parseBaseGo_bad hc hcbad]
  rfl

/-! ## Hexadecimal round trip -/

/-- Value of a little-endian base-16 digit list. -/
def valLE16 (ds : List Nat) : Nat :=
  ds.foldr (fun d r => d + 16 * r) 0

theorem natHexAux_lt {fuel n : Nat} : ∀ d ∈ natHexAux fuel n, d < 16 := by
  induction fuel generalizing n with
  | zero => simp [natHexAux]
  | succ m ih =>
    intro d hd
    simp only [natHexAux] at hd
    by_cases hn : n = 0
    · rw [if_pos hn] at hd; simp at hd
    · rw [if_neg hn] at hd
      rcases List.mem_cons.mp hd with h1 | h2
      · subst h1; exact Nat.mod_lt n (by norm_num)
      · exact ih d h2

theorem natHexAux_val : ∀ fuel n : Nat, n ≤ fuel →
    valLE16 (natHexAux fuel n) = n := by
  intro fuel
  induction fuel with
  | zero =>
    intro n h
    interval_cases n
    rfl
  | succ m ih =>
    intro n h
    by_cases hn : n = 0
    · subst hn; rfl
    · simp only [natHexAux, if_neg hn, valLE16, List.foldr_cons]
      have hlt : n / 16 < n := Nat.div_lt_self (Nat.pos_of_ne_zero hn) (by norm_num)
      have h2 := ih (n / 16) (by omega)
      rw [show (natHexAux m (n / 16)).foldr (fun d r => d + 16 * r) 0
            = valLE16 (natHexAux m (n / 16)) from rfl, h2]
      omega

theorem natHexAux_ne_nil {fuel n : Nat} (hf : 0 < fuel) (hn : 0 < n) :
    natHexAux fuel n ≠ [] := by
  cases fuel with
  | zero => omega
  | succ m =>
    simp only [natHexAux]
    rw [if_neg (by omega : ¬ n = 0)]
    simp

theorem digitVal_hexDigitChar {d : Nat} (h : d < 16) :
    digitVal 16 (hexDigitChar d) = some d := by
  interval_cases d <;> decide

theorem parseBaseGo_hexMap : ∀ L : List Nat, (∀ d ∈ L, d < 16) →
    ∀ acc, parseBaseGo 16 acc (L.map hexDigitChar)
      = some (L.foldl (fun a d => a * 16 + d) acc) := by
  intro L
  induction L with
  | nil => intro _ acc; rfl
  | cons d t ih =>
    intro h acc
    simp only [List.map_cons, parseBaseGo, List.foldl_cons]
    rw [digitVal_hexDigitChar (h d (List.mem_cons_self d t))]
    exact ih (fun x hx => h x (List.mem_cons_of_mem d hx)) _

theorem foldl_rev16 (L : List Nat) (acc : Nat) :
    L.reverse.foldl (fun a d => a * 16 + d) acc
      = acc * 16 ^ L.length + valLE16 L := by
  induction L generalizing acc with
  | nil => simp [valLE16]
  | cons d t ih =>
    simp only [List.reverse_cons, List.foldl_append, List.foldl_cons,
      List.foldl_nil, List.length_cons, valLE16, List.foldr_cons]
    rw [ih]
    have : valLE16 t = t.foldr (fun d r => d + 16 * r) 0 := rfl
    rw [← this]
    ring

theorem parseBase16_natToHexChars (n : Nat) :
    parseBase 16 (natToHexChars n) = some n := by
  by_cases hn : n = 0
  · subst hn; decide
  · unfold natToHexChars
    rw [if_neg hn]
    have hne : (natHexLE n) ≠ [] :=
      natHexAux_ne_nil (Nat.pos_of_ne_zero hn) (Nat.pos_of_ne_zero hn)
    unfold parseBase
    rw [if_neg (by simp [hne])]
    rw [parseBaseGo_hexMap ((natHexLE n).reverse)
      (fun d hd => natHexAux_lt d (List.mem_reverse.mp hd)) 0]
    rw [foldl_rev16]
    simp only [Nat.zero_mul, Nat.zero_add, List.length_reverse, List.reverse_reverse]
    rw [show natHexLE n = natHexAux n n from rfl, natHexAux_val n n (Nat.le_refl n)]

theorem hexDigitChar_tame {d : Nat} (h : d < 16) :
    hexDigitChar d ≠ '.' ∧ jsIsWs (hexDigitChar d) = false := by
  interval_cases d <;> exact ⟨by decide, by decide⟩

theorem natToHexChars_tame {n : Nat} :
    ∀ c ∈ natToHexChars n, c ≠ '.' ∧ jsIsWs c = false := by
  intro c hc
  unfold natToHexChars at hc
  by_cases hn : n = 0
  · rw [if_pos hn] at hc
    simp at hc
    subst hc; exact ⟨by decide, by decide⟩
  · rw [if_neg hn] at hc
    obtain ⟨d, hd, rfl⟩ := List.mem_map.mp hc
    exact hexDigitChar_tame (natHexAux_lt d (List.mem_reverse.mp hd))

/-- Re-parsing the 0x-prefixed hex serialization of a natural number w
through parseUnits multiplies it by 10 to the 18: the whole hex literal
is taken as the integer part (JS BigInt accepts 0x literals) and scaled
by the decimals factor again. -/
theorem parseUnits_hex_reparse (w : Nat) :
    parseUnits (toHexWei (w : Int)) 18 = some ((w : Int) * 10 ^ 18) := by
  have hlist : (toHexWei (w : Int)).toList = '0' :: 'x' :: natToHexChars w := by
    unfold toHexWei jsBigIntToString16
    rw [if_neg (by omega : ¬ (w : Int) < 0)]
    rw [show ((w : Int)).toNat = w from Int.toNat_ofNat w]
    rfl
  have htame : ∀ c ∈ '0' :: 'x' :: natToHexChars w, c ≠ '.' ∧ jsIsWs c = false := by
    intro c hc
    rcases List.mem_cons.mp hc with h1 | h2
    · subst h1; exact ⟨by decide, by decide⟩
    rcases List.mem_cons.mp h2 with h3 | h4
    · subst h3; exact ⟨by decide, by decide⟩
    · exact natToHexChars_tame c h4
  have hParts : puParts (toHexWei (w : Int)).toList = ['0' :: 'x' :: natToHexChars w] := by
    unfold puParts
    rw [hlist, jsTrim_of_noWs (fun c hc => (htame c hc).2),
      splitOnDot_no_dot (fun c hc => (htame c hc).1)]
  have hW : puWhole (toHexWei (w : Int)).toList = '0' :: 'x' :: natToHexChars w := by
    unfold puWhole
    rw [hParts]
    simp
  have hF : puFracArg (toHexWei (w : Int)).toList 18 = List.replicate 18 '0' := by
    unfold puFracArg puFrac
    rw [hParts]
    simp
  have hwhole : jsStringToBigInt ('0' :: 'x' :: natToHexChars w)
      = some (Int.ofNat w) := by
    unfold jsStringToBigInt
    rw [jsTrim_of_noWs (fun c hc => (htame c hc).2)]
    rw [show jsParseIntChars ('0' :: 'x' :: natToHexChars w)
          = (parseBase 16 (natToHexChars w)).map Int.ofNat from rfl]
    rw [parseBase16_natToHexChars]
    rfl
  unfold parseUnits parseUnitsChars
  rw [hW, hF, hwhole]
  rw [show jsStringToBigInt (List.replicate 18 '0') = some 0 from by decide]
  simp

/-! ## parseUnits on digit-and-dot strings -/

theorem ascii_not_ws {c : Char} (h1 : 33 ≤ c.toNat) (h2 : c.toNat ≤ 126) :
    jsIsWs c = false := by
  unfold jsIsWs
  rw [decide_eq_false_iff_not]
  rintro (hmem | ⟨hl, hr⟩)
  · simp [jsWsCodes] at hmem
    omega
  · omega

theorem digit_char_noWs {c : Char} (h : c.isDigit = true ∨ c = '.') :
    jsIsWs c = false := by
  rcases h with hd | rfl
  · obtain ⟨h1, h2⟩ := isDigit_toNat hd
    exact ascii_not_ws (by omega) (by omega)
  · decide

theorem jsTrim_subset {l : List Char} {c : Char} (h : c ∈ jsTrim l) : c ∈ l := by
  unfold jsTrim at h
  rw [List.mem_reverse] at h
  have h2 := (List.dropWhile_sublist jsIsWs).subset h
  rw [List.mem_reverse] at h2
  exact (List.dropWhile_sublist jsIsWs).subset h2

/-- On a string made only of decimal digits and dots, parseUnits always
succeeds and returns a non-negative integer; in particular BigInt never
throws on the generated whole and fractional substrings. -/
theorem parseUnits_digits (s : String)
    (h : ∀ c ∈ s.toList, c.isDigit = true ∨ c = '.') :
    ∃ n : Nat, parseUnits s 18 = some (Int.ofNat n) := by
  have hnw : ∀ c ∈ s.toList, jsIsWs c = false := fun c hc => digit_char_noWs (h c hc)
  have htrim : jsTrim s.toList = s.toList := jsTrim_of_noWs hnw
  have hPP : puParts s.toList = splitOnDot s.toList := by unfold puParts; rw [htrim]
  have hwm : (splitOnDot s.toList).headD [] ∈ splitOnDot s.toList :=
    headD_mem [] (splitOnDot_ne_nil _)
  have hwdig : ∀ c ∈ (splitOnDot s.toList).headD [], c.isDigit = true := by
    intro c hc
    obtain ⟨hmem, hne⟩ := splitOnDot_mem hwm hc
    rcases h c hmem with hd | rfl
    · exact hd
    · exact absurd rfl hne
  have hwhole : ∃ nw : Nat, jsStringToBigInt (puWhole s.toList) = some (Int.ofNat nw) := by
    unfold puWhole
    rw [hPP]
    by_cases hnil : (splitOnDot s.toList).headD [] = []
    · rw [if_pos hnil]
      exact ⟨0, by decide⟩
    · rw [if_neg hnil]
      unfold jsStringToBigInt
      rw [jsTrim_of_noWs (fun c hc => digit_char_noWs (Or.inl (hwdig c hc)))]
      exact jsParseIntChars_digits hnil hwdig
  have hfdig : ∀ c ∈ ((splitOnDot s.toList).drop 1).headD [], c.isDigit = true := by
    by_cases hdrop : (splitOnDot s.toList).drop 1 = []
    · rw [hdrop]; intro c hc; simp at hc
    · intro c hc
      have hmem2 : ((splitOnDot s.toList).drop 1).headD []
          ∈ (splitOnDot s.toList).drop 1 := headD_mem [] hdrop
      have hmem3 := List.mem_of_mem_drop hmem2
      obtain ⟨hmem, hne⟩ := splitOnDot_mem hmem3 hc
      rcases h c hmem with hd | rfl
      · exact hd
      · exact absurd rfl hne
  have hfr : ∀ c ∈ puFrac s.toList 18, c.isDigit = true := by
    intro c hc
    unfold puFrac at hc
    rw [hPP] at hc
    have hc2 := List.take_subset 18 _ hc
    rcases List.mem_append.mp hc2 with h1 | h2
    · exact hfdig c h1
    · rw [List.eq_of_mem_replicate h2]; decide
  have hfne : puFrac s.toList 18 ≠ [] := by
    unfold puFrac
    intro hcon
    have hlen := congrArg List.length hcon
    rw [List.length_take, List.length_append, List.length_replicate] at hlen
    simp at hlen
  have hfrac : ∃ nf : Nat, jsStringToBigInt (puFracArg s.toList 18)
      = some (Int.ofNat nf) := by
    unfold puFracArg
    rw [if_neg hfne]
    unfold jsStringToBigInt
    rw [jsTrim_of_noWs (fun c hc => digit_char_noWs (Or.inl (hfr c hc)))]
    exact jsParseIntChars_digits hfne hfr
  obtain ⟨nw, hnw2⟩ := hwhole
  obtain ⟨nf, hnf⟩ := hfrac
  refine ⟨nw * 10 ^ 18 + nf, ?_⟩
  unfold parseUnits parseUnitsChars
  rw [hnw2, hnf]
  congr 1

/-! ## Claims about the amount computation -/

/-- Claim C7: the decimal-to-wei conversion satisfies
parseUnits of the string 0.000001337 with 18 decimals equal to
1337000000000, and parseUnits of the string 0.0001337 equal to
133700000000000, with exact integer arithmetic (the Option Int result
models the possible BigInt throw; some means a normal return). -/
theorem claim_C7 :
    parseUnits "0.000001337" 18 = some 1337000000000 ∧
    parseUnits "0.0001337" 18 = some 133700000000000 :=
  ⟨by decide, by decide⟩

/-- Claim C10: for every string of decimal digits with at most one dot
(including the empty string, strings with no integer part, and strings
whose fractional part is longer than 18 digits), parseUnits with 18
decimals returns a non-negative integer and never throws; the empty
string and the lone dot both yield 0. -/
theorem claim_C10 :
    (∀ s : String, (∀ c ∈ s.toList, c.isDigit = true ∨ c = '.') →
        s.toList.count '.' ≤ 1 →
        ∃ n : Nat, parseUnits s 18 = some (Int.ofNat n)) ∧
    parseUnits "" 18 = some 0 ∧ parseUnits "." 18 = some 0 :=
  ⟨fun s h _ => parseUnits_digits s h, by decide, by decide⟩

/-- Witness for claim C10 at the concrete input .5 (no integer part). -/
theorem claim_C10_witness :
    ∃ n : Nat, parseUnits ".5" 18 = some (Int.ofNat n) :=
  claim_C10.1 ".5" (by decide) (by decide)

/-- Counterexample to claim C9 as stated: the string 1.2.3 contains two
dots, hence is malformed in the sense of the claim, yet the conversion does
not fail: JS destructuring of the split keeps only the first two
segments, so parseUnits returns 1.2 scaled by 10 to the 18. -/
theorem claim_C9_counterexample :
    ("1.2.3").toList.count '.' = 2 ∧
    parseUnits "1.2.3" 18 = some 1200000000000000000 :=
  ⟨by decide, by decide⟩

/-- Claim C9 (amended): a string whose integer part (the segment
before the first dot), after the whitespace trimming that the BigInt
string conversion itself performs at both ends, begins with a nonzero
digit and still contains a non-digit character makes the conversion
throw (the InvalidAmount surface); but a string with more than one dot
does not in itself fail: segments after the second dot are ignored and
parseUnits of 1.2.3 returns 1.2 scaled by 10 to the 18. -/
theorem claim_C9_amended :
    (∀ (s : String) (h0 : Char) (t : List Char),
        jsTrim (wholeChars s) = h0 :: t → h0.isDigit = true → h0 ≠ '0' →
        (∃ c ∈ h0 :: t, c.isDigit = false) →
        parseUnits s 18 = none) ∧
    parseUnits "1.2.3" 18 = some 1200000000000000000 := by
  refine ⟨?_, by decide⟩
  intro s h0 t hw hdig hz hbad
  have hne : ¬ ((puParts s.toList).headD [] = []) := by
    intro hnil
    unfold wholeChars at hw
    rw [hnil] at hw
    simp [jsTrim] at hw
  have hwhole : puWhole s.toList = wholeChars s := by
    unfold puWhole
    rw [if_neg hne]
    rfl
  have hbig : jsStringToBigInt (wholeChars s) = none := by
    unfold jsStringToBigInt
    rw [hw]
    exact jsParseIntChars_bad rfl hdig hz hbad
  unfold parseUnits parseUnitsChars
  rw [hwhole, hbig]

/-- Witness for the amended claim C9 at the concrete input 1a. -/
theorem claim_C9_witness : parseUnits "1a" 18 = none :=
  claim_C9_amended.1 "1a" '1' ['a'] (by decide) (by decide) (by decide)
    ⟨'a', by decide, by decide⟩

/-- Counterexample to claim C8 as stated: for d = 0.000001337 the
composition toWei (toHex (toWei d)) does not equal toWei d. JS BigInt
reads the 0x-prefixed serialization as a plain integer part, so
parseUnits scales it by 10 to the 18 once more. -/
theorem claim_C8_counterexample :
    parseUnits "0.000001337" 18 = some 1337000000000 ∧
    toHexWei 1337000000000 = "0x1374b68fa00" ∧
    parseUnits "0x1374b68fa00" 18 = some (1337000000000 * 10 ^ 18) ∧
    (1337000000000 * 10 ^ 18 : Int) ≠ 1337000000000 :=
  ⟨by decide, by decide, by decide, by decide⟩

/-- Claim C8 (amended): for every valid decimal string d with at most
one dot, only digit characters, and at most 18 fractional digits, the
conversion toWei d is a non-negative integer w and re-parsing its hex
serialization yields w scaled by 10 to the 18 (so the round trip as
originally claimed holds only for w = 0). -/
theorem claim_C8_amended :
    ∀ s : String, (∀ c ∈ s.toList, c.isDigit = true ∨ c = '.') →
      s.toList.count '.' ≤ 1 → fracLen s ≤ 18 →
      ∃ w : Nat, parseUnits s 18 = some (Int.ofNat w) ∧
        parseUnits (toHexWei (Int.ofNat w)) 18 = some (Int.ofNat w * 10 ^ 18) := by
  intro s h _ _
  obtain ⟨w, hw⟩ := parseUnits_digits s h
  exact ⟨w, hw, parseUnits_hex_reparse w⟩

/-- Witness for the amended claim C8 at the concrete input 0.000001337. -/
theorem claim_C8_witness :
    ∃ w : Nat, parseUnits "0.000001337" 18 = some (Int.ofNat w) ∧
      parseUnits (toHexWei (Int.ofNat w)) 18 = some (Int.ofNat w * 10 ^ 18) :=
  claim_C8_amended "0.000001337" (by decide) (by decide) (by decide)

/-! ## Wallet provider and session model -/

/-- Native currency metadata of a chain record. -/
structure NativeCurrency where
  name : String
  symbol : String
  decimals : Nat
  deriving DecidableEq

/-- Parameters of a wallet_addEthereumChain request. -/
structure AddChainParams where
  chainId : String
  chainName : String
  rpcUrl : String
  blockExplorer : String
  currency : NativeCurrency
  deriving DecidableEq

/-- The provider requests issued by the wallet core (an ethSendTx call
carries the from, to, value and data fields of its parameter object). -/
inductive RpcCall where
  | ethChainId : RpcCall
  | walletSwitch : String → RpcCall
  | walletAdd : AddChainParams → RpcCall
  | ethSendTx : String → String → String → String → RpcCall
  deriving DecidableEq

/-- A JS value returned by a provider request (unit for switch and add,
a string for chain ids and transaction hashes). -/
inductive RpcRet where
  | unit : RpcRet
  | str : String → RpcRet
  deriving DecidableEq

/-- A thrown JS error: an optional numeric code and a message. -/
structure JsErr where
  code : Option Int
  msg : String
  deriving DecidableEq

/-- Observable events of a run: provider calls and sleeps (the sleep
argument is the delay in milliseconds). -/
inductive Ev where
  | rpc : RpcCall → Ev
  | sleep : Nat → Ev
  deriving DecidableEq

/-- A provider behaviour: the response to a request may depend on the
events observed so far; this models wallets whose chain changes over
time, wallets that reject some calls, and races. -/
def Provider : Type :=
  List Ev → RpcCall → Except JsErr RpcRet

/-- Supported chain keys. -/
inductive ChainKey where
  | base : ChainKey
  | hyperevm : ChainKey
  deriving DecidableEq

/-- Mutable front-end session state shared by the variants (each
variant reads and writes the fields its source file has), plus the
event trace of the run. -/
structure St where
  account : Option String
  currentChainId : Option RpcRet
  status : String
  txHash : RpcRet
  lastTx : Option (ChainKey × RpcRet)
  loading : Bool
  isMiniApp : Bool
  hostChains : List String
  trace : List Ev
  deriving DecidableEq

/-- providerRequest(provider, method, params): throws when there is no
provider, otherwise records the call in the trace and returns the
response of the provider (the call is recorded even when it rejects: the
request was made). -/
def providerRequest (p? : Option Provider) (c : RpcCall) (st : St) :
    Except JsErr RpcRet × St :=
  match p? with
  | none => (.error ⟨none, "No EIP-1193 provider available"⟩, st)
  | some p => (p st.trace c, { st with trace := st.trace ++ [Ev.rpc c] })

/-- The string err?.message || String(err) produces for the modelled
Error values. -/
def errText (e : JsErr) : String :=
  if e.msg = "" then "Error" else e.msg

/-- Template-literal rendering of a provider result. -/
def rpcShow : RpcRet → String
  | .unit => "undefined"
  | .str s => s

/-- Number of trace events satisfying f. -/
def countEv (f : Ev → Bool) (l : List Ev) : Nat :=
  (l.filter f).length

/-- Is the event an eth_chainId poll. -/
def isChainIdEv : Ev → Bool
  | .rpc .ethChainId => true
  | _ => false

/-- Is the event an eth_sendTransaction call. -/
def isSendTxEv : Ev → Bool
  | .rpc (.ethSendTx _ _ _ _) => true
  | _ => false

/-- Is the event a wallet_switchEthereumChain call. -/
def isSwitchEv : Ev → Bool
  | .rpc (.walletSwitch _) => true
  | _ => false

/-- Is the event a wallet_addEthereumChain call. -/
def isAddEv : Ev → Bool
  | .rpc (.walletAdd _) => true
  | _ => false

/-- refreshChainId(provider) of variants V0 and V1: requests
eth_chainId and stores the result in the observed chain id; errors
propagate to the caller. -/
def refreshChainId (p? : Option Provider) (st : St) : Except JsErr RpcRet × St :=
  match providerRequest p? RpcCall.ethChainId st with
  | (.ok cid, st1) => (.ok cid, { st1 with currentChainId := some cid })
  | (.error e, st1) => (.error e, st1)

/-- The confirmation for-loop shared by the V0 and V1 switchChain: up
to fuel polls of the chain id, returning on a match, sleeping 250ms
after each failed comparison; an Error reading Chain switch did not complete
when the budget is exhausted. -/
def verifyLoop (p? : Option Provider) (target : String) :
    Nat → St → Except JsErr Unit × St
  | 0, st => (.error ⟨none, "Chain switch did not complete."⟩, st)
  | fuel + 1, st =>
    match refreshChainId p? st with
    | (.error e, st1) => (.error e, st1)
    | (.ok cid, st1) =>
      if cid = RpcRet.str target then (.ok (), st1)
      else verifyLoop p? target fuel { st1 with trace := st1.trace ++ [Ev.sleep 250] }

/-! ## Variant V0: fixed strike constant, plain switch-then-poll -/

/-- ChainDescriptor record of variant V0. -/
structure ChainRec0 where
  caip2 : String
  idHex : String
  name : String
  rpcUrl : String
  blockExplorer : String
  contractAddress : String
  strikeAmountDecimal : String
  strikeSymbol : String

/-- STRIKE_WEI = 1337420690000n of variant V0. -/
def STRIKE_WEI : Int := 1337420690000

/-- STRIKE_DECIMAL of variant V0. -/
def STRIKE_DECIMAL : String := "0.00000133742069"

/-- The CHAINS table of variant V0. -/
def chainsV0 : ChainKey → ChainRec0
  | ChainKey.base =>
    ⟨"eip155:8453", "0x2105", "Base", "https://mainnet.base.org",
      "https://basescan.org", "0xB2B23e69b9d811D3D43AD473f90A171D18b19aab",
      STRIKE_DECIMAL, "ETH"⟩
  | ChainKey.hyperevm =>
    ⟨"eip155:999", "0x3e7", "HyperEVM", "https://rpc.hyperliquid.xyz/evm",
      "https://hyperevmscan.io", "0xDddED87c1f1487495E8aa47c9B43FEf4c5153054",
      STRIKE_DECIMAL, "HYPE"⟩

/-- strikeWei of variant V0: both chains use the same constant. -/
def strikeWei0 (_ : ChainKey) : Int := STRIKE_WEI

/-- supportsHyperEvmInHost() of variant V0. -/
def supportsHyperEvmInHost (st : St) : Bool :=
  if !st.isMiniApp then true
  else st.hostChains.contains "eip155:999" || st.hostChains.contains "eip155:53460"

namespace V0

/-- switchChain(chainKey) of variant V0: a status update, a single
switch request (errors propagate: there is no catch), then the bounded
verification poll. -/
def switchChain (p? : Option Provider) (ck : ChainKey) (st : St) :
    Except JsErr Unit × St :=
  match p? with
  | none => (.error ⟨none, "No wallet provider"⟩, st)
  | some _ =>
    match providerRequest p? (RpcCall.walletSwitch (chainsV0 ck).idHex)
        { st with status := "Switching to " ++ (chainsV0 ck).name ++ "..." } with
    | (.error e, st1) => (.error e, st1)
    | (.ok _, st1) => verifyLoop p? (chainsV0 ck).idHex 10 st1

/-- The try-block of sendTransaction of variant V0: negotiation, the
defensive chain re-check, the confirmation status and the transaction
request; the caller applies the catch and the finally. -/
def sendTxAttempt (p? : Option Provider) (ck : ChainKey) (a : String) (st : St) :
    Except JsErr RpcRet × St :=
  match switchChain p? ck st with
  | (.error e, st1) => (.error e, st1)
  | (.ok _, st1) =>
    match refreshChainId p? st1 with
    | (.error e, st2) => (.error e, st2)
    | (.ok cid, st2) =>
      if cid ≠ RpcRet.str (chainsV0 ck).idHex then
        (.error ⟨none, "Wrong chain. Expected " ++ (chainsV0 ck).name ++ " ("
          ++ (chainsV0 ck).idHex ++ "), got " ++ rpcShow cid⟩, st2)
      else
        match providerRequest p?
            (RpcCall.ethSendTx a (chainsV0 ck).contractAddress
              (toHexWei (strikeWei0 ck)) "0x")
            { st2 with status := "Confirm strike: Send "
              ++ (chainsV0 ck).strikeAmountDecimal ++ " "
              ++ (chainsV0 ck).strikeSymbol ++ "..." } with
        | (.error e, st3) => (.error e, st3)
        | (.ok hash, st3) =>
          (.ok hash, { st3 with
            txHash := hash
            status := "Transaction sent on " ++ (chainsV0 ck).name ++ "!" })

/-- sendTransaction(chainKey) of variant V0: the guards (account,
provider, HyperEVM host support), then the try-body, the catch that
surfaces a Transaction failed status, and the finally that clears the
loading flag. The delayed asynchronous backend refresh after a success
is out of scope (it contacts only the leaderboard service). -/
def sendTransaction (p? : Option Provider) (ck : ChainKey) (st : St) : St :=
  match st.account with
  | none => { st with status := "Connect wallet first." }
  | some a =>
    if a = "" then { st with status := "Connect wallet first." }
    else
      match p? with
      | none => { st with status := "No wallet provider." }
      | some _ =>
        if ck = ChainKey.hyperevm ∧ st.isMiniApp ∧ ¬ supportsHyperEvmInHost st then
          { st with status := "HyperEVM is not supported by this host wallet." }
        else
          match sendTxAttempt p? ck a
              { st with loading := true, txHash := RpcRet.str "" } with
          | (.ok _, st1) => { st1 with loading := false }
          | (.error e, st1) =>
            { st1 with
              status := "Transaction failed: " ++ errText e
              loading := false }

end V0

/-! ## Variant V1: parseUnits amounts, add-then-retry switchChain -/

/-- Lowercasing of an ASCII character, for the error-message checks. -/
def jsToLowerChar (c : Char) : Char :=
  if 65 ≤ c.toNat ∧ c.toNat ≤ 90 then Char.ofNat (c.toNat + 32) else c

/-- Model of String.prototype.toLowerCase on the ASCII messages this
code compares. -/
def jsToLower (s : String) : String :=
  String.mk (s.toList.map jsToLowerChar)

/-- Does the needle occur at the head of the haystack. -/
def leadMatches : List Char → List Char → Bool
  | [], _ => true
  | _ :: _, [] => false
  | a :: as, b :: bs => a == b && leadMatches as bs

/-- Substring search underlying the String.prototype.includes model. -/
def containsSub (hay needle : List Char) : Bool :=
  match hay with
  | [] => needle.isEmpty
  | _ :: t => leadMatches needle hay || containsSub t needle

/-- Model of String.prototype.includes. -/
def jsIncludes (s sub : String) : Bool :=
  containsSub s.toList sub.toList

/-- The chainNotAdded test in the catch clause of variant V1:
err?.code === 4902 or the lowercased message contains unrecognized or
not added. -/
def chainNotAdded (err : JsErr) : Bool :=
  err.code == some 4902 || jsIncludes (jsToLower err.msg) "unrecognized"
    || jsIncludes (jsToLower err.msg) "not added"

/-- ChainDescriptor record of variant V1. -/
structure ChainRec1 where
  caip2 : String
  idHex : String
  name : String
  rpcUrl : String
  blockExplorer : String
  contractAddress : String
  strikeAmountDecimal : String
  strikeSymbol : String

/-- The CHAINS table of variant V1. -/
def chainsV1 : ChainKey → ChainRec1
  | ChainKey.base =>
    ⟨"eip155:8453", "0x2105", "Base", "https://mainnet.base.org",
      "https://basescan.org", "0xB2B23e69b9d811D3D43AD473f90A171D18b19aab",
      "0.000001337", "ETH"⟩
  | ChainKey.hyperevm =>
    ⟨"eip155:999", "0x3e7", "HyperEVM", "https://rpc.hyperliquid.xyz/evm",
      "https://explorer.hyperliquid.xyz", "0xDddED87c1f1487495E8aa47c9B43FEf4c5153054",
      "0.0001337", "HYPE"⟩

/-- The wallet_addEthereumChain parameters built by the switchChain of
variant V1 (in the source the currency name is the chain name and the
symbol is chosen by chain key). -/
def addParamsV1 (ck : ChainKey) : AddChainParams :=
  ⟨(chainsV1 ck).idHex, (chainsV1 ck).name, (chainsV1 ck).rpcUrl,
    (chainsV1 ck).blockExplorer,
    ⟨(chainsV1 ck).name, if ck = ChainKey.base then "ETH" else "HYPE", 18⟩⟩

namespace V1

/-- switchChain(chainKey) of variant V1: try the switch; on an
unrecognized-chain failure throw inside a Mini App host, otherwise add
the chain and retry the switch (errors of the add and of the retry
propagate); any other switch failure rethrows; finally run the bounded
verification poll. -/
def switchChain (p? : Option Provider) (ck : ChainKey) (st : St) :
    Except JsErr Unit × St :=
  match p? with
  | none => (.error ⟨none, "No wallet provider"⟩, st)
  | some _ =>
    match providerRequest p? (RpcCall.walletSwitch (chainsV1 ck).idHex)
        { st with status := "Switching to " ++ (chainsV1 ck).name ++ "..." } with
    | (.ok _, st1) => verifyLoop p? (chainsV1 ck).idHex 10 st1
    | (.error err, st1) =>
      if chainNotAdded err ∧ st.isMiniApp then
        (.error ⟨none, (chainsV1 ck).name ++ " is not available in this host wallet. This Mini App will only show HyperEVM when the host supports it."⟩, st1)
      else if chainNotAdded err then
        match providerRequest p? (RpcCall.walletAdd (addParamsV1 ck)) st1 with
        | (.error e, st2) => (.error e, st2)
        | (.ok _, st2) =>
          match providerRequest p? (RpcCall.walletSwitch (chainsV1 ck).idHex) st2 with
          | (.error e, st3) => (.error e, st3)
          | (.ok _, st3) => verifyLoop p? (chainsV1 ck).idHex 10 st3
      else (.error err, st1)

end V1

/-! ## Variant V2: CHAINS records with valueWei, switchOrAddChain -/

/-- ChainDescriptor record of variant V2. -/
structure ChainRec2 where
  key : String
  chainIdHex : String
  name : String
  rpcUrl : String
  blockExplorer : String
  contractAddress : String
  valueWei : Int
  strikeLabel : String
  nativeCurrency : NativeCurrency

/-- The CHAINS table of variant V2 (the near-identical sibling variant
App.jsx differs only in the Base valueWei constant: 1337420690000n
there against 1337000000000n here; the spec flags that discrepancy as
an open question). -/
def chainsV2 : ChainKey → ChainRec2
  | ChainKey.base =>
    ⟨"base", "0x2105", "Base", "https://mainnet.base.org",
      "https://basescan.org", "0xB2B23e69b9d811D3D43AD473f90A171D18b19aab",
      1337000000000, "0.000001337 ETH", ⟨"ETH", "ETH", 18⟩⟩
  | ChainKey.hyperevm =>
    ⟨"hyperevm", "0x3e7", "HyperEVM", "https://rpc.hyperliquid.xyz/evm",
      "https://hyperevmscan.io", "0x044A0B2D6eF67F5B82e51ec7229D84C0e83C8f02",
      133700000000000, "0.0001337 HYPE", ⟨"HYPE", "HYPE", 18⟩⟩

/-- Provider environment of variant V2: the two candidate providers and
the connection source tag. -/
structure Env where
  fcProvider : Option Provider
  browserProvider : Option Provider
  connectedVia : Option String

/-- getActiveProvider() of variant V2: the connected provider when the
tag and the provider agree, else prefer the Farcaster provider, else
the browser provider, else none. -/
def getActiveProvider (e : Env) : Option Provider :=
  match e.connectedVia, e.fcProvider with
  | some "farcaster", some p => some p
  | _, _ =>
    match e.connectedVia, e.browserProvider with
    | some "browser", some p => some p
    | _, _ =>
      match e.fcProvider with
      | some p => some p
      | none => e.browserProvider

namespace V2

/-- refreshChainId() of variant V2: returns nothing when no provider is
active and swallows request errors. -/
def refreshChainId (e : Env) (st : St) : St :=
  match getActiveProvider e with
  | none => st
  | some _ =>
    match providerRequest (getActiveProvider e) RpcCall.ethChainId st with
    | (.ok cid, st1) => { st1 with currentChainId := some cid }
    | (.error _, st1) => st1

/-- switchOrAddChain(chainKey) of variant V2: switch; on code 4902 add
the chain (and do not retry the switch); any other error rethrows;
then refresh the observed chain id. -/
def switchOrAddChain (e : Env) (ck : ChainKey) (st : St) :
    Except JsErr Unit × St :=
  match getActiveProvider e with
  | none => (.error ⟨none, "No provider"⟩, st)
  | some _ =>
    match providerRequest (getActiveProvider e)
        (RpcCall.walletSwitch (chainsV2 ck).chainIdHex) st with
    | (.ok _, st1) => (.ok (), refreshChainId e st1)
    | (.error err, st1) =>
      if err.code == some 4902 then
        match providerRequest (getActiveProvider e)
            (RpcCall.walletAdd ⟨(chainsV2 ck).chainIdHex, (chainsV2 ck).name,
              (chainsV2 ck).rpcUrl, (chainsV2 ck).blockExplorer,
              (chainsV2 ck).nativeCurrency⟩) st1 with
        | (.ok _, st2) => (.ok (), refreshChainId e st2)
        | (.error e2, st2) => (.error e2, st2)
      else (.error err, st1)

/-- The try-block of sendStrike of variant V2: the loading flag and the
preparation status, negotiation, the confirmation status and the
transaction request; on success the StrikeResult (lastTx) and the
success status are recorded. -/
def sendStrikeCore (e : Env) (a : String) (ck : ChainKey) (st : St) :
    Except JsErr RpcRet × St :=
  match switchOrAddChain e ck
      { st with
        loading := true
        status := "Preparing strike on " ++ (chainsV2 ck).name ++ "…" } with
  | (.error er, st1) => (.error er, st1)
  | (.ok _, st1) =>
    match providerRequest (getActiveProvider e)
        (RpcCall.ethSendTx a (chainsV2 ck).contractAddress
          (toHexWei (chainsV2 ck).valueWei) "0x")
        { st1 with status := "Confirm the transaction in your wallet…" } with
    | (.error er, st2) => (.error er, st2)
    | (.ok hash, st2) =>
      (.ok hash, { st2 with
        lastTx := some (ck, hash)
        status := "Strike sent!" })

/-- sendStrike(chainKey) of variant V2: the account and provider
guards, the try-body, the catch (a fixed cancellation status), and the
finally, which clears the loading flag. The delayed leaderboard refresh after a
success is out of scope (it contacts only the backend service). -/
def sendStrike (e : Env) (ck : ChainKey) (st : St) : St :=
  match st.account with
  | none => { st with status := "Connect a wallet first." }
  | some a =>
    if a = "" then { st with status := "Connect a wallet first." }
    else
      match getActiveProvider e with
      | none => { st with status := "No wallet provider available." }
      | some _ =>
        match sendStrikeCore e a ck st with
        | (.ok _, st1) => { st1 with loading := false }
        | (.error _, st1) =>
          { st1 with
            status := "Transaction cancelled or failed."
            loading := false }

end V2

/-! ## Trace lemmas -/

theorem countEv_append (f : Ev → Bool) (l1 l2 : List Ev) :
    countEv f (l1 ++ l2) = countEv f l1 + countEv f l2 := by
  simp [countEv, List.filter_append]

/-- Every run of the verification poll only appends chain-id polls and
250ms sleeps to the trace, and when the poll budget is positive the
first appended event is a chain-id poll. -/
theorem verifyLoop_trace (p : Provider) (target : String) :
    ∀ (fuel : Nat) (st : St), ∃ rest,
      (verifyLoop (some p) target fuel st).2.trace = st.trace ++ rest ∧
      (∀ ev ∈ rest, ev = Ev.rpc RpcCall.ethChainId ∨ ev = Ev.sleep 250) ∧
      (0 < fuel → rest.head? = some (Ev.rpc RpcCall.ethChainId)) := by
  intro fuel
  induction fuel with
  | zero =>
    intro st
    refine ⟨[], by simp [verifyLoop], by simp, by omega⟩
  | succ fuel ih =>
    intro st
    cases hr : p st.trace RpcCall.ethChainId with
    | error e =>
      refine ⟨[Ev.rpc RpcCall.ethChainId], ?_, ?_, ?_⟩
      · simp [verifyLoop, refreshChainId, providerRequest, hr]
      · intro ev hev
        simp at hev
        subst hev
        exact Or.inl rfl
      · intro _; rfl
    | ok cid =>
      by_cases hc : cid = RpcRet.str target
      · refine ⟨[Ev.rpc RpcCall.ethChainId], ?_, ?_, ?_⟩
        · simp [verifyLoop, refreshChainId, providerRequest, hr, hc]
        · intro ev hev
          simp at hev
          subst hev
          exact Or.inl rfl
        · intro _; rfl
      · obtain ⟨rest', h1, h2, _⟩ := ih
          { st with
            currentChainId := some cid
            trace := (st.trace ++ [Ev.rpc RpcCall.ethChainId]) ++ [Ev.sleep 250] }
        refine ⟨Ev.rpc RpcCall.ethChainId :: Ev.sleep 250 :: rest', ?_, ?_, ?_⟩
        · simp only [verifyLoop, refreshChainId, providerRequest, hr]
          rw [if_neg hc] at *
          rw [h1]
          simp [List.append_assoc]
        · intro ev hev
          rcases List.mem_cons.mp hev with h3 | h4
          · exact Or.inl h3
          rcases List.mem_cons.mp h4 with h5 | h6
          · exact Or.inr h5
          · exact h2 ev h6
        · intro _; rfl

/-- Under a provider whose chain id never equals the target (and never
throws on the poll), the verification loop burns its whole budget:
exactly fuel polls, each followed by a 250ms sleep, ending in the
Chain switch did not complete error. -/
theorem verifyLoop_timeout (p : Provider) (target : String)
    (hp : ∀ hist, ∃ c, p hist RpcCall.ethChainId = Except.ok (RpcRet.str c)
      ∧ c ≠ target) :
    ∀ (fuel : Nat) (st : St),
      (verifyLoop (some p) target fuel st).1
        = Except.error ⟨none, "Chain switch did not complete."⟩ ∧
      ∃ rest,
        (verifyLoop (some p) target fuel st).2.trace = st.trace ++ rest ∧
        countEv isChainIdEv rest = fuel ∧
        countEv isSendTxEv rest = 0 ∧
        (∀ ev ∈ rest, ev = Ev.rpc RpcCall.ethChainId ∨ ev = Ev.sleep 250) := by
  intro fuel
  induction fuel with
  | zero =>
    intro st
    exact ⟨rfl, [], by simp [verifyLoop], rfl, rfl, by simp⟩
  | succ fuel ih =>
    intro st
    obtain ⟨c, hr, hne⟩ := hp st.trace
    have hcid : ¬ (RpcRet.str c = RpcRet.str target) := by
      intro h; exact hne (RpcRet.str.injEq c target ▸ congrArg rpcShow h)
    obtain ⟨ihr, rest', h1, h2, h3, h4⟩ := ih
      { st with
        currentChainId := some (RpcRet.str c)
        trace := (st.trace ++ [Ev.rpc RpcCall.ethChainId]) ++ [Ev.sleep 250] }
    refine ⟨?_, Ev.rpc RpcCall.ethChainId :: Ev.sleep 250 :: rest', ?_, ?_, ?_, ?_⟩
    · simp only [verifyLoop, refreshChainId, providerRequest, hr]
      rw [if_neg hcid]
      exact ihr
    · simp only [verifyLoop, refreshChainId, providerRequest, hr]
      rw [if_neg hcid]
      rw [h1]
      simp [List.append_assoc]
    · rw [show (Ev.rpc RpcCall.ethChainId :: Ev.sleep 250 :: rest')
            = [Ev.rpc RpcCall.ethChainId, Ev.sleep 250] ++ rest' from rfl,
        countEv_append, h2]
      have hc2 : countEv isChainIdEv [Ev.rpc RpcCall.ethChainId, Ev.sleep 250] = 1 := rfl
      omega
    · rw [show (Ev.rpc RpcCall.ethChainId :: Ev.sleep 250 :: rest')
            = [Ev.rpc RpcCall.ethChainId, Ev.sleep 250] ++ rest' from rfl,
        countEv_append, h3]
      rfl
    · intro ev hev
      rcases List.mem_cons.mp hev with h5 | h6
      · exact Or.inl h5
      rcases List.mem_cons.mp h6 with h7 | h8
      · exact Or.inr h7
      · exact h4 ev h8

/-! ## Helper lemmas for the V0 claims -/

theorem countEv_eq_zero {f : Ev → Bool} {l : List Ev}
    (h : ∀ ev ∈ l, f ev = false) : countEv f l = 0 := by
  unfold countEv
  rw [List.filter_eq_nil_iff.mpr (fun a ha => by simp [h a ha])]
  rfl

theorem errText_of_ne {e : JsErr} (h : e.msg ≠ "") : errText e = e.msg := by
  unfold errText
  rw [if_neg h]

theorem append_ne_empty {s t : String} (h : s.length ≠ 0) : s ++ t ≠ "" := by
  intro hc
  have hlen := congrArg String.length hc
  rw [String.length_append] at hlen
  simp at hlen
  omega

/-- Whatever the provider does, the V0 switchChain appends no
eth_sendTransaction call to the trace. -/
theorem V0.switchChain_trace (p : Provider) (ck : ChainKey) (st : St) :
    ∃ rest, (V0.switchChain (some p) ck st).2.trace = st.trace ++ rest ∧
      countEv isSendTxEv rest = 0 := by
  cases hr : p st.trace (RpcCall.walletSwitch (chainsV0 ck).idHex) with
  | error e =>
    refine ⟨[Ev.rpc (RpcCall.walletSwitch (chainsV0 ck).idHex)], ?_, rfl⟩
    simp [V0.switchChain, providerRequest, hr]
  | ok v =>
    obtain ⟨rest', h1, h2, _⟩ := verifyLoop_trace p (chainsV0 ck).idHex 10
      { st with
        status := "Switching to " ++ (chainsV0 ck).name ++ "..."
        trace := st.trace ++ [Ev.rpc (RpcCall.walletSwitch (chainsV0 ck).idHex)] }
    refine ⟨Ev.rpc (RpcCall.walletSwitch (chainsV0 ck).idHex) :: rest', ?_, ?_⟩
    · simp only [V0.switchChain, providerRequest, hr]
      rw [h1]
      simp
    · have hz : ∀ ev ∈ rest', isSendTxEv ev = false := by
        intro ev hev
        rcases h2 ev hev with h3 | h3 <;> (subst h3; rfl)
      rw [show (Ev.rpc (RpcCall.walletSwitch (chainsV0 ck).idHex) :: rest')
            = [Ev.rpc (RpcCall.walletSwitch (chainsV0 ck).idHex)] ++ rest' from rfl,
        countEv_append, countEv_eq_zero hz]
      rfl

/-! ## Concrete providers and states used by witnesses -/

/-- An idle session: nothing connected yet. -/
def stIdle : St :=
  ⟨none, none, "", RpcRet.str "", none, false, false, [], []⟩

/-- A connected browser session currently observing chain 0x1. -/
def stConn : St :=
  ⟨some "0xABCD000000000000000000000000000000001234", some (RpcRet.str "0x1"),
    "", RpcRet.str "", none, false, false, [], []⟩

/-- A provider that accepts the switch but whose chain id stays 0x1
forever (the wallet never actually switches). -/
def provStale : Provider := fun _ c =>
  match c with
  | RpcCall.walletSwitch _ => Except.ok RpcRet.unit
  | RpcCall.ethChainId => Except.ok (RpcRet.str "0x1")
  | RpcCall.ethSendTx _ _ _ _ => Except.ok (RpcRet.str "0xdead")
  | _ => Except.error ⟨none, "unexpected"⟩

/-- A provider that rejects the switch call outright (user denial) and
whose chain id stays 0x1 forever. -/
def provRejectSwitch : Provider := fun _ c =>
  match c with
  | RpcCall.walletSwitch _ => Except.error ⟨some 4001, "User rejected the request."⟩
  | RpcCall.ethChainId => Except.ok (RpcRet.str "0x1")
  | _ => Except.error ⟨none, "unexpected"⟩

/-- A racy provider: the switch succeeds and the first chain-id poll
reports the Base target, but every later read reports 0x1 again. -/
def provRace : Provider := fun hist c =>
  match c with
  | RpcCall.walletSwitch _ => Except.ok RpcRet.unit
  | RpcCall.ethChainId =>
    if countEv isChainIdEv hist = 0 then Except.ok (RpcRet.str "0x2105")
    else Except.ok (RpcRet.str "0x1")
  | RpcCall.ethSendTx _ _ _ _ => Except.ok (RpcRet.str "0xdead")
  | _ => Except.error ⟨none, "unexpected"⟩

/-! ## Claim C5 -/

/-- Claim C5: with no active account, sendTransaction fails immediately
with the NotConnected status (Connect wallet first.), the session state
changes only in that status field, and the trace is unchanged: no
provider call at all is made, in particular no eth_chainId, no
wallet_switchEthereumChain and no eth_sendTransaction. -/
theorem claim_C5 (p? : Option Provider) (ck : ChainKey) (st : St)
    (h : st.account = none) :
    V0.sendTransaction p? ck st = { st with status := "Connect wallet first." } ∧
    (V0.sendTransaction p? ck st).trace = st.trace := by
  have h1 : V0.sendTransaction p? ck st
      = { st with status := "Connect wallet first." } := by
    unfold V0.sendTransaction
    rw [h]
  exact ⟨h1, by rw [h1]⟩

/-- Witness for claim C5 on a concrete idle session and provider. -/
theorem claim_C5_witness :
    V0.sendTransaction (some provStale) ChainKey.base stIdle
      = { stIdle with status := "Connect wallet first." } ∧
    (V0.sendTransaction (some provStale) ChainKey.base stIdle).trace
      = stIdle.trace :=
  claim_C5 (some provStale) ChainKey.base stIdle rfl

/-! ## Claim C3 -/

/-- Counterexample to claim C3 as stated: provRejectSwitch is in the
provider class of the claim (its eth_chainId result is always 0x1 and never
the Base target), yet the strike attempt fails with the switch
rejection message, not with the ChainSwitchTimeout condition, and makes
zero chain-id polls. -/
theorem claim_C3_counterexample :
    (V0.sendTransaction (some provRejectSwitch) ChainKey.base stConn).status
      = "Transaction failed: User rejected the request." ∧
    (V0.sendTransaction (some provRejectSwitch) ChainKey.base stConn).status
      ≠ "Transaction failed: Chain switch did not complete." ∧
    countEv isChainIdEv
      (V0.sendTransaction (some provRejectSwitch) ChainKey.base stConn).trace = 0 ∧
    countEv isSendTxEv
      (V0.sendTransaction (some provRejectSwitch) ChainKey.base stConn).trace = 0 :=
  ⟨rfl, by decide, rfl, rfl⟩

/-- Claim C3 (amended): for every provider whose switch call succeeds
and whose eth_chainId never equals the target chain id (and never
throws), the strike attempt polls the chain id exactly 10 times (hence
at most 10), every recorded delay is 250ms, the attempt fails with the
ChainSwitchTimeout condition (Chain switch did not complete.), and no
eth_sendTransaction call is made. -/
theorem claim_C3_amended (p : Provider) (ck : ChainKey) (st : St) (a : String)
    (hacct : st.account = some a) (ha : a ≠ "")
    (hck : ck = ChainKey.hyperevm → st.isMiniApp = false)
    (hsw : ∀ hist, p hist (RpcCall.walletSwitch (chainsV0 ck).idHex)
      = Except.ok RpcRet.unit)
    (hcid : ∀ hist, ∃ c, p hist RpcCall.ethChainId = Except.ok (RpcRet.str c)
      ∧ c ≠ (chainsV0 ck).idHex) :
    (V0.sendTransaction (some p) ck st).status
      = "Transaction failed: Chain switch did not complete." ∧
    ∃ rest, (V0.sendTransaction (some p) ck st).trace = st.trace ++ rest ∧
      countEv isChainIdEv rest = 10 ∧
      countEv isSendTxEv rest = 0 ∧
      (∀ ms, Ev.sleep ms ∈ rest → ms = 250) := by
  have hgate : ¬ (ck = ChainKey.hyperevm ∧ st.isMiniApp
      ∧ ¬ supportsHyperEvmInHost st) := by
    rintro ⟨hck2, hmini, -⟩
    rw [hck hck2] at hmini
    exact absurd hmini (by decide)
  obtain ⟨herr, rest', htr, h10, h0, hmem⟩ :=
    verifyLoop_timeout p (chainsV0 ck).idHex hcid 10
      { st with
        account := some a
        loading := true
        txHash := RpcRet.str ""
        status := "Switching to " ++ (chainsV0 ck).name ++ "..."
        trace := st.trace ++ [Ev.rpc (RpcCall.walletSwitch (chainsV0 ck).idHex)] }
  have hvl : verifyLoop (some p) (chainsV0 ck).idHex 10
      { st with
        account := some a
        loading := true
        txHash := RpcRet.str ""
        status := "Switching to " ++ (chainsV0 ck).name ++ "..."
        trace := st.trace ++ [Ev.rpc (RpcCall.walletSwitch (chainsV0 ck).idHex)] }
      = (Except.error ⟨none, "Chain switch did not complete."⟩,
         (verifyLoop (some p) (chainsV0 ck).idHex 10
           { st with
             account := some a
             loading := true
             txHash := RpcRet.str ""
             status := "Switching to " ++ (chainsV0 ck).name ++ "..."
             trace := st.trace
               ++ [Ev.rpc (RpcCall.walletSwitch (chainsV0 ck).idHex)] }).2) := by
    rw [← herr]
  have hkey : V0.sendTransaction (some p) ck st
      = { (verifyLoop (some p) (chainsV0 ck).idHex 10
            { st with
              account := some a
              loading := true
              txHash := RpcRet.str ""
              status := "Switching to " ++ (chainsV0 ck).name ++ "..."
              trace := st.trace
                ++ [Ev.rpc (RpcCall.walletSwitch (chainsV0 ck).idHex)] }).2 with
          status := "Transaction failed: Chain switch did not complete."
          loading := false } := by
    unfold V0.sendTransaction
    rw [hacct]
    dsimp only
    rw [if_neg ha, if_neg hgate]
    unfold V0.sendTxAttempt V0.switchChain providerRequest
    dsimp only
    rw [hsw]
    dsimp only
    rw [hvl]
    dsimp only
    rfl
  refine ⟨?_, Ev.rpc (RpcCall.walletSwitch (chainsV0 ck).idHex) :: rest',
    ?_, ?_, ?_, ?_⟩
  · rw [hkey]
  · rw [hkey]
    show (verifyLoop (some p) (chainsV0 ck).idHex 10
      { st with
        account := some a
        loading := true
        txHash := RpcRet.str ""
        status := "Switching to " ++ (chainsV0 ck).name ++ "..."
        trace := st.trace
          ++ [Ev.rpc (RpcCall.walletSwitch (chainsV0 ck).idHex)] }).2.trace = _
    rw [htr]
    dsimp only
    simp [List.append_assoc]
  · rw [show (Ev.rpc (RpcCall.walletSwitch (chainsV0 ck).idHex) :: rest')
        = [Ev.rpc (RpcCall.walletSwitch (chainsV0 ck).idHex)] ++ rest' from rfl,
      countEv_append, h10]
    rfl
  · rw [show (Ev.rpc (RpcCall.walletSwitch (chainsV0 ck).idHex) :: rest')
        = [Ev.rpc (RpcCall.walletSwitch (chainsV0 ck).idHex)] ++ rest' from rfl,
      countEv_append, h0]
    rfl
  · intro ms hms
    rcases List.mem_cons.mp hms with h1 | h1
    · exact absurd h1 (by simp)
    · rcases hmem (Ev.sleep ms) h1 with h2 | h2
      · exact absurd h2 (by simp)
      · injection h2

/-- Witness for the amended claim C3: the concrete provider provStale
accepts the switch but stays on chain 0x1 forever. -/
theorem claim_C3_witness :
    (V0.sendTransaction (some provStale) ChainKey.base stConn).status
      = "Transaction failed: Chain switch did not complete." ∧
    ∃ rest, (V0.sendTransaction (some provStale) ChainKey.base stConn).trace
        = stConn.trace ++ rest ∧
      countEv isChainIdEv rest = 10 ∧
      countEv isSendTxEv rest = 0 ∧
      (∀ ms, Ev.sleep ms ∈ rest → ms = 250) :=
  claim_C3_amended provStale ChainKey.base stConn
    "0xABCD000000000000000000000000000000001234" rfl (by decide)
    (fun h => absurd h (by decide))
    (fun _ => rfl)
    (fun _ => ⟨"0x1", rfl, by decide⟩)

/-! ## Claim C4 -/

theorem wrong_chain_msg_ne (x y z : String) :
    "Wrong chain. Expected " ++ x ++ " (" ++ y ++ "), got " ++ z ≠ "" := by
  intro h
  have hlen := congrArg String.length h
  simp only [String.length_append] at hlen
  have h22 : ("Wrong chain. Expected ").length = 22 := rfl
  have hp2 : (" (").length = 2 := rfl
  have hp7 : ("), got ").length = 7 := rfl
  have hz : ("" : String).length = 0 := rfl
  omega

/-- Claim C4: when chain negotiation (switchChain) reports success but
the chain id re-read immediately afterwards differs from the target
chain id, the strike attempt fails with the ChainMismatch condition
(the Wrong chain status) and never calls eth_sendTransaction. -/
theorem claim_C4 (p : Provider) (ck : ChainKey) (st : St) (a c : String)
    (hacct : st.account = some a) (ha : a ≠ "")
    (hck : ck = ChainKey.hyperevm → st.isMiniApp = false)
    (hsw : (V0.switchChain (some p) ck
      { st with loading := true, txHash := RpcRet.str "" }).1 = Except.ok ())
    (hre : p (V0.switchChain (some p) ck
        { st with loading := true, txHash := RpcRet.str "" }).2.trace
        RpcCall.ethChainId
      = Except.ok (RpcRet.str c))
    (hc : c ≠ (chainsV0 ck).idHex) :
    (V0.sendTransaction (some p) ck st).status
      = "Transaction failed: Wrong chain. Expected " ++ (chainsV0 ck).name
        ++ " (" ++ (chainsV0 ck).idHex ++ "), got " ++ c ∧
    ∃ rest, (V0.sendTransaction (some p) ck st).trace = st.trace ++ rest ∧
      countEv isSendTxEv rest = 0 := by
  have hgate : ¬ (ck = ChainKey.hyperevm ∧ st.isMiniApp
      ∧ ¬ supportsHyperEvmInHost st) := by
    rintro ⟨hck2, hmini, -⟩
    rw [hck hck2] at hmini
    exact absurd hmini (by decide)
  rw [hacct] at hsw hre
  have hswp : V0.switchChain (some p) ck
      { st with account := some a, loading := true, txHash := RpcRet.str "" }
      = (Except.ok (), (V0.switchChain (some p) ck
          { st with account := some a, loading := true, txHash := RpcRet.str "" }).2) := by
    rw [← hsw]
  have hpos : RpcRet.str c ≠ RpcRet.str (chainsV0 ck).idHex := by
    intro hh
    apply hc
    injection hh
  obtain ⟨r1, htr1, hcount1⟩ := V0.switchChain_trace p ck
    { st with account := some a, loading := true, txHash := RpcRet.str "" }
  have hkey : V0.sendTransaction (some p) ck st
      = { (V0.switchChain (some p) ck
            { st with account := some a, loading := true, txHash := RpcRet.str "" }).2 with
          currentChainId := some (RpcRet.str c)
          trace := (V0.switchChain (some p) ck
            { st with account := some a, loading := true, txHash := RpcRet.str "" }).2.trace
            ++ [Ev.rpc RpcCall.ethChainId]
          status := "Transaction failed: " ++ errText ⟨none, "Wrong chain. Expected "
            ++ (chainsV0 ck).name ++ " (" ++ (chainsV0 ck).idHex ++ "), got "
            ++ rpcShow (RpcRet.str c)⟩
          loading := false } := by
    unfold V0.sendTransaction
    rw [hacct]
    dsimp only
    rw [if_neg ha, if_neg hgate]
    unfold V0.sendTxAttempt
    rw [hswp]
    dsimp only
    unfold refreshChainId providerRequest
    dsimp only
    rw [hre]
    dsimp only
    rw [if_pos hpos]
  refine ⟨?_, r1 ++ [Ev.rpc RpcCall.ethChainId], ?_, ?_⟩
  · rw [hkey]
    show "Transaction failed: " ++ errText ⟨none, "Wrong chain. Expected "
      ++ (chainsV0 ck).name ++ " (" ++ (chainsV0 ck).idHex ++ "), got "
      ++ rpcShow (RpcRet.str c)⟩ = _
    rw [errText_of_ne (wrong_chain_msg_ne (chainsV0 ck).name (chainsV0 ck).idHex
      (rpcShow (RpcRet.str c)))]
    show "Transaction failed: " ++ ("Wrong chain. Expected "
      ++ (chainsV0 ck).name ++ " (" ++ (chainsV0 ck).idHex ++ "), got " ++ c) = _
    simp only [← String.append_assoc]
    rfl
  · rw [hkey]
    show (V0.switchChain (some p) ck
      { st with account := some a, loading := true, txHash := RpcRet.str "" }).2.trace
      ++ [Ev.rpc RpcCall.ethChainId]
      = st.trace ++ (r1 ++ [Ev.rpc RpcCall.ethChainId])
    rw [htr1]
    dsimp only
    simp [List.append_assoc]
  · rw [countEv_append, hcount1]
    rfl

/-- Witness for claim C4: the racy provider provRace satisfies the
hypotheses concretely (its first chain-id poll reports the target, the
re-read reports 0x1). -/
theorem claim_C4_witness :
    (V0.sendTransaction (some provRace) ChainKey.base stConn).status
      = "Transaction failed: Wrong chain. Expected "
        ++ (chainsV0 ChainKey.base).name ++ " ("
        ++ (chainsV0 ChainKey.base).idHex ++ "), got " ++ "0x1" ∧
    ∃ rest, (V0.sendTransaction (some provRace) ChainKey.base stConn).trace
        = stConn.trace ++ rest ∧
      countEv isSendTxEv rest = 0 :=
  claim_C4 provRace ChainKey.base stConn
    "0xABCD000000000000000000000000000000001234" "0x1" rfl (by decide)
    (fun h => absurd h (by decide)) rfl rfl (by decide)

/-! ## Claim C2 -/

/-- A provider whose switch call always fails with code 4902, whose add
call succeeds, and whose chain id stays 0x1. -/
def provAll4902 : Provider := fun _ c =>
  match c with
  | RpcCall.walletSwitch _ => Except.error ⟨some 4902, "Unrecognized chain ID"⟩
  | RpcCall.walletAdd _ => Except.ok RpcRet.unit
  | RpcCall.ethChainId => Except.ok (RpcRet.str "0x1")
  | _ => Except.error ⟨none, "unexpected"⟩

/-- A provider whose switch fails with 4902 until the chain has been
added and succeeds afterwards; the chain id then reads the Base target. -/
def provAddThenOk : Provider := fun hist c =>
  match c with
  | RpcCall.walletSwitch _ =>
    if countEv isAddEv hist = 0 then Except.error ⟨some 4902, "Unrecognized chain ID"⟩
    else Except.ok RpcRet.unit
  | RpcCall.walletAdd _ => Except.ok RpcRet.unit
  | RpcCall.ethChainId => Except.ok (RpcRet.str "0x2105")
  | _ => Except.error ⟨none, "unexpected"⟩

/-- Counterexample to claim C2 as stated: with a provider whose switch
call always fails with code 4902 (and whose add succeeds), negotiation
does issue exactly one add call between the two switch calls, but the
retried switch throws again and negotiation aborts with that 4902
error: it never reaches the chain-id verification phase (zero
eth_chainId calls), contradicting the final conjunct of the claim. -/
theorem claim_C2_counterexample :
    (V1.switchChain (some provAll4902) ChainKey.base stConn).2.trace
      = [Ev.rpc (RpcCall.walletSwitch "0x2105"),
         Ev.rpc (RpcCall.walletAdd (addParamsV1 ChainKey.base)),
         Ev.rpc (RpcCall.walletSwitch "0x2105")] ∧
    countEv isChainIdEv
      (V1.switchChain (some provAll4902) ChainKey.base stConn).2.trace = 0 ∧
    (V1.switchChain (some provAll4902) ChainKey.base stConn).1
      = Except.error ⟨some 4902, "Unrecognized chain ID"⟩ :=
  ⟨by decide, by decide, rfl⟩

/-- Claim C2 (amended): for every provider (outside a Mini App host)
whose first switch call fails with the unrecognized-chain code 4902 and
whose subsequent add call and retried switch call succeed, negotiation
issues exactly one wallet_addEthereumChain call followed by exactly one
retry wallet_switchEthereumChain call (so exactly two switch calls in
total and no further add or switch traffic), and then proceeds to the
chain-id verification phase: the remaining provider traffic starts with
an eth_chainId poll. -/
theorem claim_C2_amended (p : Provider) (ck : ChainKey) (st : St) (msg : String)
    (hmini : st.isMiniApp = false)
    (h1 : p st.trace (RpcCall.walletSwitch (chainsV1 ck).idHex)
      = Except.error ⟨some 4902, msg⟩)
    (h2 : p (st.trace ++ [Ev.rpc (RpcCall.walletSwitch (chainsV1 ck).idHex)])
      (RpcCall.walletAdd (addParamsV1 ck)) = Except.ok RpcRet.unit)
    (h3 : p (st.trace ++ [Ev.rpc (RpcCall.walletSwitch (chainsV1 ck).idHex)]
        ++ [Ev.rpc (RpcCall.walletAdd (addParamsV1 ck))])
      (RpcCall.walletSwitch (chainsV1 ck).idHex) = Except.ok RpcRet.unit) :
    ∃ rest, (V1.switchChain (some p) ck st).2.trace
        = st.trace ++ [Ev.rpc (RpcCall.walletSwitch (chainsV1 ck).idHex),
            Ev.rpc (RpcCall.walletAdd (addParamsV1 ck)),
            Ev.rpc (RpcCall.walletSwitch (chainsV1 ck).idHex)] ++ rest ∧
      rest.head? = some (Ev.rpc RpcCall.ethChainId) ∧
      countEv isSwitchEv rest = 0 ∧
      countEv isAddEv rest = 0 := by
  have h4902 : chainNotAdded ⟨some 4902, msg⟩ = true := by
    simp [chainNotAdded]
  have hcond : ¬ (chainNotAdded ⟨some 4902, msg⟩ ∧ st.isMiniApp) := by
    rintro ⟨-, hm⟩
    rw [hmini] at hm
    exact absurd hm (by decide)
  obtain ⟨restv, hv1, hv2, hv3⟩ := verifyLoop_trace p (chainsV1 ck).idHex 10
    { st with
      status := "Switching to " ++ (chainsV1 ck).name ++ "..."
      trace := ((st.trace ++ [Ev.rpc (RpcCall.walletSwitch (chainsV1 ck).idHex)])
        ++ [Ev.rpc (RpcCall.walletAdd (addParamsV1 ck))])
        ++ [Ev.rpc (RpcCall.walletSwitch (chainsV1 ck).idHex)] }
  have hkey : V1.switchChain (some p) ck st
      = verifyLoop (some p) (chainsV1 ck).idHex 10
          { st with
            status := "Switching to " ++ (chainsV1 ck).name ++ "..."
            trace := ((st.trace
              ++ [Ev.rpc (RpcCall.walletSwitch (chainsV1 ck).idHex)])
              ++ [Ev.rpc (RpcCall.walletAdd (addParamsV1 ck))])
              ++ [Ev.rpc (RpcCall.walletSwitch (chainsV1 ck).idHex)] } := by
    unfold V1.switchChain providerRequest
    dsimp only
    rw [h1]
    dsimp only
    rw [if_neg hcond, if_pos (by rw [h4902] : (chainNotAdded ⟨some 4902, msg⟩) = true)]
    rw [h2]
    dsimp only
    rw [h3]
  refine ⟨restv, ?_, hv3 (by norm_num), ?_, ?_⟩
  · rw [hkey, hv1]
    dsimp only
    simp [List.append_assoc]
  · refine countEv_eq_zero ?_
    intro ev hev
    rcases hv2 ev hev with h4 | h4 <;> (subst h4; rfl)
  · refine countEv_eq_zero ?_
    intro ev hev
    rcases hv2 ev hev with h4 | h4 <;> (subst h4; rfl)

/-- Witness for the amended claim C2: the concrete provider
provAddThenOk rejects the first switch with 4902, accepts the add and
the retried switch, and then reports the target chain id. -/
theorem claim_C2_witness :
    ∃ rest, (V1.switchChain (some provAddThenOk) ChainKey.base stConn).2.trace
        = stConn.trace ++ [Ev.rpc (RpcCall.walletSwitch (chainsV1 ChainKey.base).idHex),
            Ev.rpc (RpcCall.walletAdd (addParamsV1 ChainKey.base)),
            Ev.rpc (RpcCall.walletSwitch (chainsV1 ChainKey.base).idHex)] ++ rest ∧
      rest.head? = some (Ev.rpc RpcCall.ethChainId) ∧
      countEv isSwitchEv rest = 0 ∧
      countEv isAddEv rest = 0 :=
  claim_C2_amended provAddThenOk ChainKey.base stConn "Unrecognized chain ID"
    rfl rfl rfl rfl

/-! ## Claim C1 -/

/-- A provider already on Base: the switch is a no-op success, the
chain id reads the Base target, and the transaction is accepted. -/
def provHappy : Provider := fun _ c =>
  match c with
  | RpcCall.walletSwitch _ => Except.ok RpcRet.unit
  | RpcCall.ethChainId => Except.ok (RpcRet.str "0x2105")
  | RpcCall.ethSendTx _ _ _ _ => Except.ok (RpcRet.str "0xhash123")
  | _ => Except.error ⟨none, "unexpected"⟩

/-- A browser environment connected to provHappy. -/
def envHappy : Env := ⟨none, some provHappy, some "browser"⟩

/-- Claim C1: with a connected account, an active provider, and Base
(0x2105) already active as the current chain of the provider (the switch succeeds and
the chain-id refresh reads 0x2105), sendStrike for Base performs
exactly one eth_sendTransaction call, whose value is the hex string
0x1374b68fa00 (the hex of the configured valueWei 1337000000000) and
whose recipient is the configured Base contract address; the whole
provider traffic is one switch, one chain-id read and that single
transaction call, and the strike is recorded. -/
theorem claim_C1 (e : Env) (p : Provider) (st : St) (a h : String)
    (hprov : getActiveProvider e = some p)
    (hacct : st.account = some a) (ha : a ≠ "")
    (hsw : p st.trace (RpcCall.walletSwitch "0x2105") = Except.ok RpcRet.unit)
    (hcid : p (st.trace ++ [Ev.rpc (RpcCall.walletSwitch "0x2105")])
      RpcCall.ethChainId = Except.ok (RpcRet.str "0x2105"))
    (htx : p ((st.trace ++ [Ev.rpc (RpcCall.walletSwitch "0x2105")])
        ++ [Ev.rpc RpcCall.ethChainId])
      (RpcCall.ethSendTx a "0xB2B23e69b9d811D3D43AD473f90A171D18b19aab"
        "0x1374b68fa00" "0x") = Except.ok (RpcRet.str h)) :
    (chainsV2 ChainKey.base).valueWei = 1337000000000 ∧
    toHexWei 1337000000000 = "0x1374b68fa00" ∧
    (chainsV2 ChainKey.base).contractAddress
      = "0xB2B23e69b9d811D3D43AD473f90A171D18b19aab" ∧
    (V2.sendStrike e ChainKey.base st).trace
      = st.trace ++ [Ev.rpc (RpcCall.walletSwitch "0x2105"),
          Ev.rpc RpcCall.ethChainId,
          Ev.rpc (RpcCall.ethSendTx a "0xB2B23e69b9d811D3D43AD473f90A171D18b19aab"
            "0x1374b68fa00" "0x")] ∧
    (V2.sendStrike e ChainKey.base st).lastTx
      = some (ChainKey.base, RpcRet.str h) ∧
    (V2.sendStrike e ChainKey.base st).status = "Strike sent!" := by
  have hkey : V2.sendStrike e ChainKey.base st
      = { st with
          currentChainId := some (RpcRet.str "0x2105")
          status := "Strike sent!"
          lastTx := some (ChainKey.base, RpcRet.str h)
          loading := false
          trace := ((st.trace ++ [Ev.rpc (RpcCall.walletSwitch "0x2105")])
            ++ [Ev.rpc RpcCall.ethChainId])
            ++ [Ev.rpc (RpcCall.ethSendTx a
              "0xB2B23e69b9d811D3D43AD473f90A171D18b19aab" "0x1374b68fa00" "0x")] } := by
    unfold V2.sendStrike
    rw [hacct]
    dsimp only
    rw [if_neg ha, hprov]
    dsimp only
    unfold V2.sendStrikeCore V2.switchOrAddChain V2.refreshChainId providerRequest
    rw [hprov]
    dsimp only [chainsV2]
    rw [hsw]
    dsimp only
    rw [hcid]
    dsimp only
    rw [show toHexWei (1337000000000 : Int) = "0x1374b68fa00" from by decide]
    rw [htx]
    dsimp only
    rw [hacct]
  refine ⟨rfl, by decide, rfl, ?_, ?_, ?_⟩
  · rw [hkey]
    dsimp only
    simp [List.append_assoc]
  · rw [hkey]
  · rw [hkey]

/-- Witness for claim C1 on the concrete provider provHappy and the
connected session stConn. -/
theorem claim_C1_witness :
    (chainsV2 ChainKey.base).valueWei = 1337000000000 ∧
    toHexWei 1337000000000 = "0x1374b68fa00" ∧
    (chainsV2 ChainKey.base).contractAddress
      = "0xB2B23e69b9d811D3D43AD473f90A171D18b19aab" ∧
    (V2.sendStrike envHappy ChainKey.base stConn).trace
      = stConn.trace ++ [Ev.rpc (RpcCall.walletSwitch "0x2105"),
          Ev.rpc RpcCall.ethChainId,
          Ev.rpc (RpcCall.ethSendTx "0xABCD000000000000000000000000000000001234"
            "0xB2B23e69b9d811D3D43AD473f90A171D18b19aab" "0x1374b68fa00" "0x")] ∧
    (V2.sendStrike envHappy ChainKey.base stConn).lastTx
      = some (ChainKey.base, RpcRet.str "0xhash123") ∧
    (V2.sendStrike envHappy ChainKey.base stConn).status = "Strike sent!" :=
  claim_C1 envHappy provHappy stConn "0xABCD000000000000000000000000000000001234"
    "0xhash123" rfl rfl (by decide) rfl rfl rfl

/-! ## Claim C6 -/

/-- A provider that switches and reports Base but rejects the
transaction (user denial in the wallet). -/
def provRejectTx : Provider := fun _ c =>
  match c with
  | RpcCall.walletSwitch _ => Except.ok RpcRet.unit
  | RpcCall.ethChainId => Except.ok (RpcRet.str "0x2105")
  | RpcCall.ethSendTx _ _ _ _ => Except.error ⟨some 4001, "User rejected the request."⟩
  | _ => Except.error ⟨none, "unexpected"⟩

/-- A connected session observing chain 0x1 before the attempt. -/
def stC6 : St :=
  ⟨some "0xabc", some (RpcRet.str "0x1"), "", RpcRet.str "", none, false, false, [], []⟩

/-- A browser environment connected to provRejectTx. -/
def envC6 : Env := ⟨none, some provRejectTx, some "browser"⟩

/-- The V2 refreshChainId never touches the account or the recorded
StrikeResult (lastTx). -/
theorem V2.refreshChainId_keeps (e : Env) (p : Provider) (st : St)
    (hprov : getActiveProvider e = some p) :
    (V2.refreshChainId e st).account = st.account ∧
    (V2.refreshChainId e st).lastTx = st.lastTx := by
  unfold V2.refreshChainId providerRequest
  rw [hprov]
  dsimp only
  cases hr : p st.trace RpcCall.ethChainId with
  | ok v => exact ⟨rfl, rfl⟩
  | error e2 => exact ⟨rfl, rfl⟩

/-- The V2 switchOrAddChain never touches the account or the recorded
StrikeResult (lastTx), whatever the provider answers. -/
theorem V2.switchOrAddChain_keeps (e : Env) (p : Provider) (ck : ChainKey) (st : St)
    (hprov : getActiveProvider e = some p) :
    ((V2.switchOrAddChain e ck st).2.account = st.account) ∧
    ((V2.switchOrAddChain e ck st).2.lastTx = st.lastTx) := by
  unfold V2.switchOrAddChain providerRequest
  rw [hprov]
  dsimp only
  cases hr : p st.trace (RpcCall.walletSwitch (chainsV2 ck).chainIdHex) with
  | ok v =>
    dsimp only
    exact ⟨(V2.refreshChainId_keeps e p _ hprov).1.trans rfl,
      (V2.refreshChainId_keeps e p _ hprov).2.trans rfl⟩
  | error err =>
    dsimp only
    by_cases h49 : (err.code == some 4902) = true
    · rw [if_pos h49]
      cases hr2 : p (st.trace ++ [Ev.rpc (RpcCall.walletSwitch (chainsV2 ck).chainIdHex)])
          (RpcCall.walletAdd ⟨(chainsV2 ck).chainIdHex, (chainsV2 ck).name,
            (chainsV2 ck).rpcUrl, (chainsV2 ck).blockExplorer,
            (chainsV2 ck).nativeCurrency⟩) with
      | ok v2 =>
        dsimp only
        exact ⟨(V2.refreshChainId_keeps e p _ hprov).1.trans rfl,
          (V2.refreshChainId_keeps e p _ hprov).2.trans rfl⟩
      | error e3 =>
        exact ⟨rfl, rfl⟩
    · rw [if_neg h49]
      exact ⟨rfl, rfl⟩

/-- When the try-body of sendStrike ends in an error, the account and
the recorded StrikeResult (lastTx) are exactly those from before the
attempt: no partial strike is recorded on any failure path. -/
theorem V2.sendStrikeCore_error_keeps (e : Env) (p : Provider) (a : String)
    (ck : ChainKey) (st : St) (er : JsErr) (st' : St)
    (hprov : getActiveProvider e = some p)
    (h : V2.sendStrikeCore e a ck st = (Except.error er, st')) :
    st'.account = st.account ∧ st'.lastTx = st.lastTx := by
  unfold V2.sendStrikeCore at h
  rcases hs : V2.switchOrAddChain e ck
    { st with
      loading := true
      status := "Preparing strike on " ++ (chainsV2 ck).name ++ "…" } with ⟨r, s1⟩
  rw [hs] at h
  have hs2 : (V2.switchOrAddChain e ck
      { st with
        loading := true
        status := "Preparing strike on " ++ (chainsV2 ck).name ++ "…" }).2 = s1 :=
    congrArg Prod.snd hs
  have hkeep1 : s1.account = st.account :=
    hs2 ▸ (V2.switchOrAddChain_keeps e p ck _ hprov).1.trans rfl
  have hkeep2 : s1.lastTx = st.lastTx :=
    hs2 ▸ (V2.switchOrAddChain_keeps e p ck _ hprov).2.trans rfl
  cases r with
  | error e0 =>
    dsimp only at h
    rw [Prod.mk.injEq] at h
    obtain ⟨-, h2⟩ := h
    subst h2
    exact ⟨hkeep1, hkeep2⟩
  | ok u =>
    dsimp only at h
    unfold providerRequest at h
    rw [hprov] at h
    dsimp only at h
    cases htx : p s1.trace (RpcCall.ethSendTx a (chainsV2 ck).contractAddress
        (toHexWei (chainsV2 ck).valueWei) "0x") with
    | ok v =>
      rw [htx] at h
      dsimp only at h
      rw [Prod.mk.injEq] at h
      exact absurd h.1 (by simp)
    | error e2 =>
      rw [htx] at h
      dsimp only at h
      rw [Prod.mk.injEq] at h
      obtain ⟨-, h2⟩ := h
      subst h2
      exact ⟨hkeep1, hkeep2⟩

/-- Claim C6 (amended): when any step of the strike attempt fails (the
switch, the add, the trailing refresh propagating an earlier throw, or
the transaction call being rejected), sendStrike surfaces the single
TransactionFailed status (Transaction cancelled or failed.), clears the
loading flag, and records no StrikeResult: lastTx and account after the
failure equal their values before the attempt. (The full session state
is not necessarily identical to the pre-attempt state: the observed
chain id may legitimately have been refreshed, see the counterexample.) -/
theorem claim_C6_amended (e : Env) (p : Provider) (ck : ChainKey) (st : St)
    (a : String)
    (hprov : getActiveProvider e = some p)
    (hacct : st.account = some a) (ha : a ≠ "")
    (er : JsErr) (st' : St)
    (hcore : V2.sendStrikeCore e a ck st = (Except.error er, st')) :
    V2.sendStrike e ck st
      = { st' with status := "Transaction cancelled or failed.", loading := false } ∧
    st'.account = st.account ∧ st'.lastTx = st.lastTx := by
  constructor
  · unfold V2.sendStrike
    rw [hacct]
    dsimp only
    rw [if_neg ha, hprov]
    dsimp only
    rw [hcore]
  · exact V2.sendStrikeCore_error_keeps e p a ck st er st' hprov hcore

/-- Counterexample to claim C6 as stated: with a provider that switches
to Base successfully and then rejects the transaction, sendStrike
surfaces the TransactionFailed status and records no StrikeResult, but
the observable session state after the failure is NOT equal to the
state before the attempt: the observed chain id changed from 0x1 to
0x2105 (the wallet really did switch chains before the rejection). -/
theorem claim_C6_counterexample :
    (V2.sendStrike envC6 ChainKey.base stC6).status
      = "Transaction cancelled or failed." ∧
    (V2.sendStrike envC6 ChainKey.base stC6).lastTx = stC6.lastTx ∧
    stC6.currentChainId = some (RpcRet.str "0x1") ∧
    (V2.sendStrike envC6 ChainKey.base stC6).currentChainId
      = some (RpcRet.str "0x2105") ∧
    (V2.sendStrike envC6 ChainKey.base stC6).currentChainId
      ≠ stC6.currentChainId :=
  ⟨rfl, rfl, rfl, rfl, by decide⟩

/-- Witness for the amended claim C6 on the concrete rejecting
provider. -/
theorem claim_C6_witness :
    V2.sendStrike envC6 ChainKey.base stC6
      = { (V2.sendStrikeCore envC6 "0xabc" ChainKey.base stC6).2 with
          status := "Transaction cancelled or failed."
          loading := false } ∧
    (V2.sendStrikeCore envC6 "0xabc" ChainKey.base stC6).2.account = stC6.account ∧
    (V2.sendStrikeCore envC6 "0xabc" ChainKey.base stC6).2.lastTx = stC6.lastTx :=
  claim_C6_amended envC6 provRejectTx ChainKey.base stC6 "0xabc" rfl rfl (by decide)
    ⟨some 4001, "User rejected the request."⟩
    (V2.sendStrikeCore envC6 "0xabc" ChainKey.base stC6).2 rfl

end ChainWarz
